import Mathlib

/-!
Verification development for the model-catalog core of OpenMPP-Go-Fork
(`ModelCatalog.RefreshSqlite`, `ModelCatalog.Close` and the index/query helpers).

The Go source is shallowly embedded: every external collaborator (the
filesystem walked by `filepath.Walk`, the `ompp/db` store layer, connection
`Close` results) is supplied as data in a `World` value, and the catalog
functions are translated into pure Lean functions over that data.  Machine
integers of the source appear as `Int`/`Nat` (no overflow is relevant here).
-/

/-! ## External db layer: row types returned by the store probe -/

/-- Row of `model_dic` as consumed by the catalog (`db.ModelDicRow`):
only the fields the catalog reads are modelled. -/
structure ModelDicRow where
  Name : String
  Digest : String
  DefaultLangCode : String
deriving DecidableEq

/-- Row of the language list (`db.LangLstRow`): the catalog only reads `LangCode`. -/
structure LangLstRow where
  LangCode : String
deriving DecidableEq

/-- Language metadata returned by `db.GetLanguages` (`db.LangMeta`):
the catalog only iterates over `Lang`. -/
structure LangMeta where
  Lang : List LangLstRow
deriving DecidableEq

/-- Wrapper mirroring `db.ModelMeta`; `RefreshSqlite` only fills `Model`. -/
structure ModelMeta where
  Model : ModelDicRow
deriving DecidableEq

/-- Modelled from the spec: external constant `db.MinSchemaVersion`
(minimal compatible openM++ schema version).  Its concrete value is
irrelevant to every claim below. -/
def MinSchemaVersion : Int := 102

/-- Results the external `ompp/db` layer produces for one store file path:
`openOk` is whether `db.Open` succeeds, `schemaVersion` the result of
`db.OpenmppSchemaVersion` (`none` = error), `modelRows` the result of
`db.GetModelList` on an open connection (`none` = error), and `langData`
the result of `db.GetLanguages` (`none` = error or nil list). -/
structure StoreData where
  openOk : Bool
  schemaVersion : Option Int
  modelRows : Option (List ModelDicRow)
  langData : Option LangMeta
deriving DecidableEq

/-! ## Filesystem model and `filepath.Walk` -/

/-- Filesystem tree as seen by `filepath.Walk`.  A directory's children are
listed in the order `readDirNames` returns them (it sorts by name).  A
directory with `readErr = some msg` models a directory whose listing fails
(for example permission denied). -/
inductive FsTree where
  | file : String → FsTree
  | dir : String → Option String → List FsTree → FsTree

def FsTree.name : FsTree → String
  | .file n => n
  | .dir n _ _ => n

def FsTree.isDir : FsTree → Bool
  | .file _ => false
  | .dir _ _ _ => true

/-- Errors flowing through the walk: `skipDir` models `filepath.SkipDir`,
`fsErr` any I/O error reported by the traversal. -/
inductive WErr where
  | skipDir : WErr
  | fsErr : String → WErr
deriving DecidableEq

/-- Extension scan of Go's `filepath.Ext`: scan backwards from the end of the
path until a path separator; return from the last dot. -/
def extAux : List Char → List Char → String
  | [], _ => ""
  | c :: rest, acc =>
    if c = '/' then ""
    else if c = '.' then String.mk ('.' :: acc)
    else extAux rest (c :: acc)

/-- Go `filepath.Ext`. -/
def filepathExt (p : String) : String := extAux p.data.reverse []

/-- ASCII case folding of a character (`unicode.SimpleFold` restricted to
ASCII, which is all the callback compares: the literal is ".sqlite"). -/
def chFold (c : Char) : Char :=
  if 'A'.toNat ≤ c.toNat ∧ c.toNat ≤ 'Z'.toNat then Char.ofNat (c.toNat + 32) else c

/-- Go `strings.EqualFold` (ASCII-compatible simple case folding). -/
def eqFold (s t : String) : Bool :=
  s.data.map chFold == t.data.map chFold

/-- Walk callback of `RefreshSqlite` (the closure passed to `filepath.Walk`):
on an incoming traversal error it logs (unless the error is `SkipDir`) and
returns that error; otherwise it appends the path to `pathLst` when its
extension case-insensitively equals ".sqlite". -/
def walkCb (src : String) (e : Option WErr) (acc : List String) :
    List String × Option WErr :=
  match e with
  | some err => (acc, some err)
  | none => (if eqFold (filepathExt src) ".sqlite" then acc ++ [src] else acc, none)

mutual
/-- Recursive `walk` of Go's `path/filepath`, specialised to the catalog's
callback.  A file: call the callback.  A directory whose listing fails:
call the callback with the error and return its result.  Otherwise call the
callback, stop on its error, and walk the children. -/
def walkT (path : String) (t : FsTree) (acc : List String) :
    List String × Option WErr :=
  match t with
  | .file _ => walkCb path none acc
  | .dir _ (some msg) _ => walkCb path (some (.fsErr msg)) acc
  | .dir _ none children =>
    match walkCb path none acc with
    | (acc1, some e) => (acc1, some e)
    | (acc1, none) => walkKids path children acc1

/-- Child loop of Go's `walk`: a child's error aborts the loop unless the
child is a directory and the error is `SkipDir`. -/
def walkKids (parent : String) (ts : List FsTree) (acc : List String) :
    List String × Option WErr :=
  match ts with
  | [] => (acc, none)
  | t :: rest =>
    match walkT (parent ++ "/" ++ t.name) t acc with
    | (acc1, none) => walkKids parent rest acc1
    | (acc1, some e) =>
      if t.isDir && e = WErr.skipDir then walkKids parent rest acc1
      else (acc1, some e)
end

/-- Go `filepath.Walk(root, fn)`: `rootT = none` models a failing `lstat` of
the root, in which case the callback is invoked once with the error; a
final `SkipDir` is converted to success. -/
def filepathWalk (root : String) (rootT : Option FsTree) (acc : List String) :
    List String × Option WErr :=
  match rootT with
  | none =>
    match walkCb root (some (.fsErr "lstat root")) acc with
    | (a, e) => (a, if e = some WErr.skipDir then none else e)
  | some t =>
    match walkT root t acc with
    | (a, e) => (a, if e = some WErr.skipDir then none else e)

/-! ## Lexicographic string order and `sort.Strings` -/

/-- Lexicographic (codepoint-wise, equivalently UTF-8 byte-wise) strict order,
the order Go's `sort.Strings` sorts by. -/
def lexLt : List Char → List Char → Bool
  | [], [] => false
  | [], _ :: _ => true
  | _ :: _, [] => false
  | a :: as, b :: bs =>
    decide (a.toNat < b.toNat) || (decide (a.toNat = b.toNat) && lexLt as bs)

/-- Lexicographic non-strict order on character lists. -/
def lexLe : List Char → List Char → Bool
  | [], _ => true
  | _ :: _, [] => false
  | a :: as, b :: bs =>
    decide (a.toNat < b.toNat) || (decide (a.toNat = b.toNat) && lexLe as bs)

def strLt (s t : String) : Bool := lexLt s.data t.data

def strLe (s t : String) : Bool := lexLe s.data t.data

/-- Insertion step of the sort modelling `sort.Strings`. -/
def insertSorted (s : String) : List String → List String
  | [] => [s]
  | t :: rest => if strLe s t then s :: t :: rest else t :: insertSorted s rest

/-- Go `sort.Strings`: stable sort in lexicographic order (any correct sort
produces this list). -/
def sortStrings : List String → List String
  | [] => []
  | s :: rest => insertSorted s (sortStrings rest)

/-! ## Registry entries -/

/-- Go `filepath.Dir` for the slash-separated paths used here: everything
before the last separator ("." when there is none).  The `Clean`
normalisation of repeated separators is not modelled; no claim depends on
`binDir`. -/
def dirOf (p : String) : String :=
  match p.data.reverse.dropWhile (fun c => c ≠ '/') with
  | [] => "."
  | [_] => "/"
  | _ :: t => String.mk t.reverse

/-- Model languages list of one entry (lines 105-117 of the source): iterate
the store's language rows; the row equal to the model's default language
code is prepended, every other row is appended.  The parallel `language.Tag`
list fed to the external `language.NewMatcher` is built in the same order
and is not modelled separately. -/
def mkLangCodes (defaultLang : String) (langs : List LangLstRow) : List String :=
  langs.foldl
    (fun ml lr =>
      if lr.LangCode = defaultLang then lr.LangCode :: ml else ml ++ [lr.LangCode])
    []

/-- Registry entry (`modelDef` of the source).  `dbConn` identifies the open
connection by the store path it was opened on; the external
`language.NewMatcher` value is a function of `langCodes` order and is not
modelled. -/
structure modelDef where
  dbConn : String
  binDir : String
  logDir : String
  isLogDir : Bool
  isMetaFull : Bool
  meta : ModelMeta
  langCodes : List String
  langMeta : LangMeta
deriving DecidableEq

/-- Entry appended at lines 120-129 of the source for one accepted model row. -/
def mkEntry (fp logDir : String) (isLogDir : Bool) (row : ModelDicRow)
    (ls : LangMeta) : modelDef :=
  { dbConn := fp
    binDir := dirOf fp
    logDir := logDir
    isLogDir := isLogDir
    isMetaFull := false
    meta := { Model := row }
    langCodes := mkLangCodes row.DefaultLangCode ls.Lang
    langMeta := ls }

/-! ## The catalog builder (lines 59-131 of the source) -/

/-- Observable calls made on the db layer while building, each tagged with the
store path whose connection is concerned.  `getModelList` records whether the
connection had already been closed when the query was issued. -/
inductive DbEvent where
  | opened : String → DbEvent
  | getModelList : String → Bool → DbEvent
  | getLanguages : String → DbEvent
  | close : String → DbEvent
deriving DecidableEq

/-- External collaborators of the catalog, as data.
`dirExists` is modelled from the spec: the repository helper `isDirExist`
(not under src/) succeeds exactly when the directory exists and is
accessible.  `rootTree` is what `filepath.Walk` finds under a root path
(`none` = the root itself cannot be stat'ed).  `store` gives the db-layer
results per store file path, `closeRes` the result of `Close()` on the
connection identified by the path it was opened on. -/
structure World where
  dirExists : String → Bool
  rootTree : String → Option FsTree
  store : String → StoreData
  closeRes : String → Option String

/-- Inner `dicLoop` (lines 94-130): append one entry per model row unless an
already-accepted entry carries the same digest. -/
def addRows (fp logDir : String) (isLogDir : Bool) (ls : LangMeta) :
    List modelDef → List ModelDicRow → List modelDef
  | mLst, [] => mLst
  | mLst, row :: rest =>
    if mLst.any (fun m => row.Digest = m.meta.Model.Digest) then
      addRows fp logDir isLogDir ls mLst rest
    else
      addRows fp logDir isLogDir ls (mLst ++ [mkEntry fp logDir isLogDir row ls]) rest

/-- Body of the `for _, fp := range pathLst` loop (lines 63-131) for one path.
Returns the updated model list and the db-layer calls made.

Two points of the source are mirrored exactly:
the schema-version failure branch (lines 71-75) logs and calls
`dbc.Close()` but — unlike its sibling branches — has no `continue`, so
execution falls through with the connection closed; and a query on a closed
`database/sql` handle fails, so the subsequent `db.GetModelList(dbc)`
returns an error in that case, which routes the path into the
empty-database skip branch (closing the connection a second time). -/
def probePath (w : World) (logDir : String) (isLogDir : Bool)
    (mLst : List modelDef) (fp : String) : List modelDef × List DbEvent :=
  if (w.store fp).openOk = false then
    (mLst, [])
  else
    let sd := w.store fp
    let schemaFail : Bool :=
      match sd.schemaVersion with
      | none => true
      | some nv => decide (nv < MinSchemaVersion)
    let evHead : List DbEvent :=
      [DbEvent.opened fp] ++ (if schemaFail then [DbEvent.close fp] else [])
        ++ [DbEvent.getModelList fp schemaFail]
    let dicRes : Option (List ModelDicRow) :=
      if schemaFail then none else sd.modelRows
    match dicRes with
    | none => (mLst, evHead ++ [DbEvent.close fp])
    | some dicLst =>
      if dicLst.length ≤ 0 then
        (mLst, evHead ++ [DbEvent.close fp])
      else
        match sd.langData with
        | none => (mLst, evHead ++ [DbEvent.getLanguages fp, DbEvent.close fp])
        | some ls =>
          (addRows fp logDir isLogDir ls mLst dicLst,
           evHead ++ [DbEvent.getLanguages fp])

/-- Outer loop over the (sorted) store paths, threading the model list and
accumulating the db-layer trace. -/
def buildModels (w : World) (logDir : String) (isLogDir : Bool) :
    List String → List modelDef → List DbEvent → List modelDef × List DbEvent
  | [], mLst, tr => (mLst, tr)
  | fp :: rest, mLst, tr =>
    let r := probePath w logDir isLogDir mLst fp
    buildModels w logDir isLogDir rest r.1 (tr ++ r.2)

/-! ## The catalog itself -/

/-- Mutable state of `ModelCatalog`.  The mutex `theLock` only serialises
access and has no effect on the sequential functional behaviour modelled
here, so it is not represented. -/
structure ModelCatalog where
  modelDir : String
  isDirEnabled : Bool
  modelLogDir : String
  isLogDirEnabled : Bool
  modelLst : List modelDef
deriving DecidableEq

/-- Result of one `RefreshSqlite` call: the catalog state after the call, the
returned error, the `Close()` calls issued on the superseded entries (with
each close's result; the source only logs these), and the db-layer trace of
the build phase. -/
structure RefreshResult where
  state : ModelCatalog
  err : Option String
  oldCloses : List (String × Option String)
  dbTrace : List DbEvent
deriving DecidableEq

/-- Go `ModelCatalog.RefreshSqlite` (lines 22-152).  The source returns early
on a bad model directory; here the same two error exits appear as the
`else` branch and the walk-error match arm. -/
def ModelCatalog.RefreshSqlite (mc : ModelCatalog) (w : World)
    (modelDir modelLogDir : String) : RefreshResult :=
  if modelDir != "" && modelDir != "." && w.dirExists modelDir then
    match filepathWalk modelDir (w.rootTree modelDir) [] with
    | (_, some _) =>
      { state := mc, err := some "Error: fail to list model directory"
        oldCloses := [], dbTrace := [] }
    | (pathLst, none) =>
      let isLogDir : Bool :=
        modelLogDir != "" && modelLogDir != "." && w.dirExists modelLogDir
      let b := buildModels w modelLogDir isLogDir (sortStrings pathLst) [] []
      { state :=
          { modelDir := modelDir
            isDirEnabled := true
            modelLogDir := modelLogDir
            isLogDirEnabled := isLogDir
            modelLst := b.1 }
        err := none
        oldCloses := mc.modelLst.map (fun m => (m.dbConn, w.closeRes m.dbConn))
        dbTrace := b.2 }
  else
    { state := mc
      err := some ("Error: model directory not exist or not accesible: " ++ modelDir)
      oldCloses := [], dbTrace := [] }

/-- Result of one `Close` call: the state after the call, the returned error,
and the connections on which `Close()` was invoked, in order. -/
structure CloseResult where
  state : ModelCatalog
  err : Option String
  closes : List String
deriving DecidableEq

/-- Error-accumulating close loop of `ModelCatalog.Close` (lines 162-170):
every entry's connection close is attempted; the first failure is kept. -/
def closeLoop (w : World) : List modelDef → Option String → Option String
  | [], firstErr => firstErr
  | m :: rest, firstErr =>
    match w.closeRes m.dbConn with
    | none => closeLoop w rest firstErr
    | some e => closeLoop w rest (if firstErr = none then some e else firstErr)

/-- Go `ModelCatalog.Close` (lines 155-175). -/
def ModelCatalog.Close (mc : ModelCatalog) (w : World) : CloseResult :=
  { state := { mc with modelLst := [] }
    err := closeLoop w mc.modelLst none
    closes := mc.modelLst.map (fun m => m.dbConn) }

/-! ## Lookup -/

/-- Loop of `indexByDigestOrName` (lines 220-234): return immediately on the
first digest match; remember the first name match (`n`, the source's
`n >= 0` becomes `Option`). -/
def indexLoop (dn : String) : List modelDef → Nat → Option Nat → Nat × Bool
  | [], _, n =>
    match n with
    | some j => (j, true)
    | none => (0, false)
  | m :: rest, k, n =>
    if m.meta.Model.Digest = dn then (k, true)
    else
      indexLoop dn rest (k + 1)
        (if n.isNone && m.meta.Model.Name = dn then some k else n)

/-- Go `ModelCatalog.indexByDigestOrName`. -/
def ModelCatalog.indexByDigestOrName (mc : ModelCatalog) (dn : String) : Nat × Bool :=
  indexLoop dn mc.modelLst 0 none

/-- Reference lookup following the spec's words: the index (counting from `k`)
of the first list element satisfying `p`. -/
def firstIdxFrom (p : modelDef → Bool) : List modelDef → Nat → Option Nat
  | [], _ => none
  | m :: rest, k => if p m then some k else firstIdxFrom p rest (k + 1)

/-! ## Concrete worlds used by witnesses and counterexamples -/

/-- Store data of a path that is not a store at all: `db.Open` fails. -/
def storeNone : StoreData := ⟨false, none, none, none⟩

/-- Catalog as constructed: empty entry list, no directories configured. -/
def mc0 : ModelCatalog := ⟨"", false, "", false, []⟩

/-- World with two store files: "a.sqlite" opens but fails the
schema-version check, "b.sqlite" is fully valid. -/
def w1 : World :=
  { dirExists := fun _ => true
    rootTree := fun _ => none
    store := fun p =>
      if p = "a.sqlite" then
        ⟨true, none, some [⟨"BadSchema", "dbad", "en"⟩], some ⟨[⟨"en"⟩]⟩⟩
      else if p = "b.sqlite" then
        ⟨true, some MinSchemaVersion, some [⟨"Good", "dg", "en"⟩], some ⟨[⟨"en"⟩]⟩⟩
      else storeNone
    closeRes := fun _ => none }

/-- Builder run over the two stores of `w1`. -/
def buildRes1 : List modelDef × List DbEvent :=
  buildModels w1 "" false ["a.sqlite", "b.sqlite"] [] []

/-- Claim C1 (code bug at the failing input): when the schema-version check
of "a.sqlite" fails, the source closes the connection but, missing the
`continue` of its sibling branches, still issues `db.GetModelList` on the
already-closed connection and closes it a second time; the store still
contributes no entries and the next path is processed normally. -/
theorem schema_fail_uses_closed_connection :
    buildRes1.2.count (DbEvent.close "a.sqlite") = 2
    ∧ DbEvent.getModelList "a.sqlite" true ∈ buildRes1.2
    ∧ buildRes1.1.map (fun m => m.meta.Model.Digest) = ["dg"] := by decide

/-- World whose model directory "m" is readable but contains a subdirectory
whose listing fails with permission denied. -/
def w2 : World :=
  { dirExists := fun s => s = "m"
    rootTree := fun s =>
      if s = "m" then some (.dir "m" none [.dir "sub" (some "permission denied") []])
      else none
    store := fun _ => storeNone
    closeRes := fun _ => none }

/-- Claim C2 (counterexample): a traversal failure on a sub-path (permission
denied on subdirectory "m/sub", while the root "m" itself lists fine) is
not skipped: the walk aborts with that error and the whole refresh fails. -/
theorem subpath_error_fails_refresh_cex :
    (mc0.RefreshSqlite w2 "m" "").err = some "Error: fail to list model directory"
    ∧ (mc0.RefreshSqlite w2 "m" "").state = mc0
    ∧ (filepathWalk "m" (w2.rootTree "m") []).2 = some (.fsErr "permission denied") := by
  decide

/-! ## Lemmas about the close loop -/

theorem closeLoop_some (w : World) (l : List modelDef) (e : String) :
    closeLoop w l (some e) = some e := by
  induction l with
  | nil => rfl
  | cons m rest ih =>
    unfold closeLoop
    cases w.closeRes m.dbConn with
    | none => exact ih
    | some e2 => simpa using ih

theorem closeLoop_none (w : World) (l : List modelDef) :
    closeLoop w l none = (l.filterMap (fun m => w.closeRes m.dbConn)).head? := by
  induction l with
  | nil => rfl
  | cons m rest ih =>
    unfold closeLoop
    cases h : w.closeRes m.dbConn with
    | none => simp [List.filterMap_cons, h, ih]
    | some e2 => simp [List.filterMap_cons, h, closeLoop_some]

/-- Claim C8: `Close` attempts to close every entry's connection in order,
continuing past individual failures while remembering the first error,
empties the entry list, and returns the first close error (the head of the
error sequence) or no error when all closes succeed; a second consecutive
`Close` finds an empty list and returns no error. -/
theorem close_contract (w : World) (mc : ModelCatalog) :
    (mc.Close w).closes = mc.modelLst.map (fun m => m.dbConn)
    ∧ (mc.Close w).state.modelLst = []
    ∧ (mc.Close w).err = (mc.modelLst.filterMap (fun m => w.closeRes m.dbConn)).head?
    ∧ ((mc.Close w).state.Close w).err = none
    ∧ ((mc.Close w).state.Close w).state.modelLst = [] :=
  ⟨rfl, rfl, closeLoop_none w mc.modelLst, rfl, rfl⟩

/-! ## Lemmas about the lookup loop -/

theorem indexLoop_spec (dn : String) (l : List modelDef) :
    ∀ (k : Nat) (n : Option Nat),
      indexLoop dn l k n =
        match firstIdxFrom (fun m => decide (m.meta.Model.Digest = dn)) l k with
        | some j => (j, true)
        | none =>
          match n with
          | some j => (j, true)
          | none =>
            match firstIdxFrom (fun m => decide (m.meta.Model.Name = dn)) l k with
            | some j => (j, true)
            | none => (0, false) := by
  induction l with
  | nil => intro k n; rfl
  | cons m rest ih =>
    intro k n
    unfold indexLoop firstIdxFrom
    by_cases hd : m.meta.Model.Digest = dn
    · simp [hd]
    · rw [ih]
      cases n with
      | some j => simp [hd]
      | none =>
        by_cases hn : m.meta.Model.Name = dn
        · simp [hd, hn]
        · simp [hd, hn]

/-- Claim C9: `indexByDigestOrName` returns the index of the first entry whose
digest equals the token whenever one exists (a digest match beats any name
match, even an earlier one); only when no digest matches does it return the
first index whose name equals the token; with no match at all it reports
`(0, false)`. -/
theorem indexByDigestOrName_spec (mc : ModelCatalog) (dn : String) :
    mc.indexByDigestOrName dn =
      match firstIdxFrom (fun m => decide (m.meta.Model.Digest = dn)) mc.modelLst 0 with
      | some j => (j, true)
      | none =>
        match firstIdxFrom (fun m => decide (m.meta.Model.Name = dn)) mc.modelLst 0 with
        | some j => (j, true)
        | none => (0, false) :=
  indexLoop_spec dn mc.modelLst 0 none

/-! ## Branch characterisations of `RefreshSqlite` -/

theorem RefreshSqlite_badDir (mc : ModelCatalog) (w : World) (md ld : String)
    (h : (md != "" && md != "." && w.dirExists md) = false) :
    mc.RefreshSqlite w md ld =
      { state := mc
        err := some ("Error: model directory not exist or not accesible: " ++ md)
        oldCloses := [], dbTrace := [] } := by
  unfold ModelCatalog.RefreshSqlite
  simp [h]

theorem RefreshSqlite_walkErr (mc : ModelCatalog) (w : World) (md ld : String)
    (e : WErr) (ps : List String)
    (h1 : (md != "" && md != "." && w.dirExists md) = true)
    (h2 : filepathWalk md (w.rootTree md) [] = (ps, some e)) :
    mc.RefreshSqlite w md ld =
      { state := mc, err := some "Error: fail to list model directory"
        oldCloses := [], dbTrace := [] } := by
  unfold ModelCatalog.RefreshSqlite
  simp [h1, h2]

theorem RefreshSqlite_success (mc : ModelCatalog) (w : World) (md ld : String)
    (ps : List String)
    (h1 : (md != "" && md != "." && w.dirExists md) = true)
    (h2 : filepathWalk md (w.rootTree md) [] = (ps, none)) :
    mc.RefreshSqlite w md ld =
      { state :=
          { modelDir := md
            isDirEnabled := true
            modelLogDir := ld
            isLogDirEnabled := (ld != "" && ld != "." && w.dirExists ld)
            modelLst :=
              (buildModels w ld (ld != "" && ld != "." && w.dirExists ld)
                (sortStrings ps) [] []).1 }
        err := none
        oldCloses := mc.modelLst.map (fun m => (m.dbConn, w.closeRes m.dbConn))
        dbTrace :=
          (buildModels w ld (ld != "" && ld != "." && w.dirExists ld)
            (sortStrings ps) [] []).2 } := by
  unfold ModelCatalog.RefreshSqlite
  simp [h1, h2]

/-- Claim C7: a refresh whose root directory is empty or does not exist
returns an error and leaves the whole catalog state (entries and directory
configuration) exactly as before. -/
theorem refresh_bad_root_unchanged (mc : ModelCatalog) (w : World) (md ld : String)
    (h : md = "" ∨ w.dirExists md = false) :
    (mc.RefreshSqlite w md ld).state = mc
    ∧ (mc.RefreshSqlite w md ld).err
        = some ("Error: model directory not exist or not accesible: " ++ md) := by
  have hc : (md != "" && md != "." && w.dirExists md) = false := by
    rcases h with h | h
    · subst h; rfl
    · simp [h]
  rw [RefreshSqlite_badDir mc w md ld hc]
  exact ⟨rfl, rfl⟩

/-- World in which no directory exists at all. -/
def w7 : World :=
  { dirExists := fun _ => false
    rootTree := fun _ => none
    store := fun _ => storeNone
    closeRes := fun _ => none }

/-- Previously populated catalog used to observe that a failed refresh leaves
state untouched. -/
def mc7 : ModelCatalog :=
  ⟨"old", true, "oldlog", true,
    [⟨"c7", "bin", "log", true, false, ⟨⟨"N", "D", "en"⟩⟩, ["en"], ⟨[⟨"en"⟩]⟩⟩]⟩

theorem refresh_bad_root_unchanged_witness :
    w7.dirExists "/does/not/exist" = false
    ∧ ((mc7.RefreshSqlite w7 "/does/not/exist" "").state = mc7
      ∧ (mc7.RefreshSqlite w7 "/does/not/exist" "").err
          = some ("Error: model directory not exist or not accesible: "
              ++ "/does/not/exist")) :=
  ⟨rfl, refresh_bad_root_unchanged mc7 w7 "/does/not/exist" "" (Or.inr rfl)⟩

/-- Claim C10: a model directory of "." is rejected exactly like "", with no
state mutation, even when "." names an existing directory; a model log
directory of "" or "." merely disables logging (`isLogDirEnabled` false)
and never causes an error. -/
theorem dot_dir_rejected_dot_logdir_disables (mc : ModelCatalog) (w : World)
    (md ld : String) (ps : List String)
    (h0 : w.dirExists "." = true)
    (h1 : (md != "" && md != "." && w.dirExists md) = true)
    (h2 : filepathWalk md (w.rootTree md) [] = (ps, none))
    (h3 : ld = "" ∨ ld = ".") :
    ((mc.RefreshSqlite w "." ld).state = mc
      ∧ (mc.RefreshSqlite w "." ld).err
          = some ("Error: model directory not exist or not accesible: " ++ "."))
    ∧ ((mc.RefreshSqlite w md ld).err = none
      ∧ (mc.RefreshSqlite w md ld).state.isLogDirEnabled = false) := by
  constructor
  · have hc : (("." : String) != "" && ("." : String) != "." && w.dirExists ".") = false := rfl
    rw [RefreshSqlite_badDir mc w "." ld hc]
    exact ⟨rfl, rfl⟩
  · rw [RefreshSqlite_success mc w md ld ps h1 h2]
    refine ⟨rfl, ?_⟩
    rcases h3 with h | h <;> subst h <;> rfl

/-- World whose directories "." and "m" exist, "m" being an empty directory. -/
def w10 : World :=
  { dirExists := fun s => s = "." || s = "m"
    rootTree := fun s => if s = "m" then some (.dir "m" none []) else none
    store := fun _ => storeNone
    closeRes := fun _ => none }

theorem dot_dir_rejected_dot_logdir_disables_witness :
    ((mc0.RefreshSqlite w10 "." ".").state = mc0
      ∧ (mc0.RefreshSqlite w10 "." ".").err
          = some ("Error: model directory not exist or not accesible: " ++ "."))
    ∧ ((mc0.RefreshSqlite w10 "m" ".").err = none
      ∧ (mc0.RefreshSqlite w10 "m" ".").state.isLogDirEnabled = false) :=
  dot_dir_rejected_dot_logdir_disables mc0 w10 "m" "." [] (by decide) (by decide)
    (by decide) (Or.inr rfl)

/-- Claim C2 (amended): a traversal failure on an individual sub-path is
logged but returned by the walk callback, which aborts the entire walk —
here, an unreadable subdirectory as the first child makes the whole walk
fail no matter what follows — and `Refresh` then returns the
fail-to-list error with its state unchanged; a failure is fatal whether
reported at the root or at a sub-path. -/
theorem walk_error_fails_refresh (mc : ModelCatalog) (w : World) (md ld : String)
    (e : WErr) (ps : List String) (p nm sn msg : String)
    (kids rest : List FsTree) (acc : List String)
    (h1 : (md != "" && md != "." && w.dirExists md) = true)
    (h2 : filepathWalk md (w.rootTree md) [] = (ps, some e)) :
    ((mc.RefreshSqlite w md ld).err = some "Error: fail to list model directory"
      ∧ (mc.RefreshSqlite w md ld).state = mc)
    ∧ (walkT p (.dir nm none (.dir sn (some msg) kids :: rest)) acc).2
        = some (.fsErr msg) := by
  constructor
  · rw [RefreshSqlite_walkErr mc w md ld e ps h1 h2]
    exact ⟨rfl, rfl⟩
  · rfl

theorem walk_error_fails_refresh_witness :
    ((mc0.RefreshSqlite w2 "m" "x").err = some "Error: fail to list model directory"
      ∧ (mc0.RefreshSqlite w2 "m" "x").state = mc0)
    ∧ (walkT "r" (.dir "root" none (.dir "sub" (some "denied") [] :: [])) []).2
        = some (.fsErr "denied") :=
  walk_error_fails_refresh mc0 w2 "m" "x" (.fsErr "permission denied") [] "r" "root"
    "sub" "denied" [] [] [] (by decide) (by decide)

/-- Entry of the pre-refresh catalog whose connection close fails. -/
def entC3 : modelDef :=
  ⟨"c1", "m", "", false, false, ⟨⟨"Old", "dold", "en"⟩⟩, ["en"], ⟨[⟨"en"⟩]⟩⟩

/-- World with an existing empty model directory "m" and a failing `Close()`
on connection "c1". -/
def w3 : World :=
  { dirExists := fun s => s = "m"
    rootTree := fun s => if s = "m" then some (.dir "m" none []) else none
    store := fun _ => storeNone
    closeRes := fun c => if c = "c1" then some "close failed" else none }

/-- Catalog holding the single entry whose close will fail. -/
def mc3 : ModelCatalog := ⟨"m", true, "", false, [entC3]⟩

/-- Claim C3 (counterexample): during this refresh the close of the superseded
entry's connection fails, yet `RefreshSqlite` returns no error — the close
failure is only logged, never surfaced as the overall result. -/
theorem refresh_close_error_not_surfaced_cex :
    (mc3.RefreshSqlite w3 "m" "").oldCloses = [("c1", some "close failed")]
    ∧ (mc3.RefreshSqlite w3 "m" "").err = none := by decide

/-- Claim C3 (amended): when `Refresh` closes the superseded entries'
connections, every entry's close is attempted regardless of earlier
failures, but close errors are only logged: `Refresh` returns no error. -/
theorem refresh_attempts_all_closes_returns_nil (mc : ModelCatalog) (w : World)
    (md ld : String) (ps : List String)
    (h1 : (md != "" && md != "." && w.dirExists md) = true)
    (h2 : filepathWalk md (w.rootTree md) [] = (ps, none)) :
    (mc.RefreshSqlite w md ld).oldCloses
      = mc.modelLst.map (fun m => (m.dbConn, w.closeRes m.dbConn))
    ∧ (mc.RefreshSqlite w md ld).err = none := by
  rw [RefreshSqlite_success mc w md ld ps h1 h2]
  exact ⟨rfl, rfl⟩

theorem refresh_attempts_all_closes_returns_nil_witness :
    (mc3.RefreshSqlite w3 "m" "").oldCloses
      = mc3.modelLst.map (fun m => (m.dbConn, w3.closeRes m.dbConn))
    ∧ (mc3.RefreshSqlite w3 "m" "").err = none :=
  refresh_attempts_all_closes_returns_nil mc3 w3 "m" "" [] (by decide) (by decide)

/-! ## Dedup invariant of the builder -/

theorem addRows_digest_nodup (fp ld : String) (il : Bool) (ls : LangMeta)
    (rows : List ModelDicRow) :
    ∀ (mLst : List modelDef),
      (mLst.map (fun m => m.meta.Model.Digest)).Nodup →
      ((addRows fp ld il ls mLst rows).map (fun m => m.meta.Model.Digest)).Nodup := by
  induction rows with
  | nil => intro mLst h; simpa [addRows] using h
  | cons row rest ih =>
    intro mLst h
    unfold addRows
    split
    · exact ih mLst h
    · rename_i hc
      apply ih
      have hne : ∀ m ∈ mLst, row.Digest ≠ m.meta.Model.Digest := by
        intro m hm
        by_contra he
        exact hc (List.any_eq_true.mpr ⟨m, hm, by simpa using he⟩)
      rw [List.map_append]
      refine List.Nodup.append h (by simp) ?_
      intro a ha hb
      simp [mkEntry] at hb
      rcases List.mem_map.mp ha with ⟨m, hm, hma⟩
      exact hne m hm (by rw [hma, hb])

theorem probePath_digest_nodup (w : World) (ld : String) (il : Bool)
    (fp : String) (mLst : List modelDef)
    (h : (mLst.map (fun m => m.meta.Model.Digest)).Nodup) :
    ((probePath w ld il mLst fp).1.map (fun m => m.meta.Model.Digest)).Nodup := by
  unfold probePath
  split
  · exact h
  · dsimp only
    split
    · exact h
    · split
      · exact h
      · split
        · exact h
        · exact addRows_digest_nodup fp ld il _ _ mLst h

theorem buildModels_digest_nodup (w : World) (ld : String) (il : Bool) :
    ∀ (paths : List String) (mLst : List modelDef) (tr : List DbEvent),
      (mLst.map (fun m => m.meta.Model.Digest)).Nodup →
      ((buildModels w ld il paths mLst tr).1.map (fun m => m.meta.Model.Digest)).Nodup := by
  intro paths
  induction paths with
  | nil => intro mLst tr h; exact h
  | cons fp rest ih =>
    intro mLst tr h
    unfold buildModels
    exact ih _ _ (probePath_digest_nodup w ld il fp mLst h)

/-- Claim C4: after any refresh run that installs a new registry, no two
entries share a digest — the builder skips every later-discovered model row
whose digest equals that of an already-accepted entry, so digest is a
unique key across the installed entry sequence. -/
theorem refresh_digests_nodup (mc : ModelCatalog) (w : World) (md ld : String)
    (h : (mc.RefreshSqlite w md ld).err = none) :
    ((mc.RefreshSqlite w md ld).state.modelLst.map
      (fun m => m.meta.Model.Digest)).Nodup := by
  by_cases hc : (md != "" && md != "." && w.dirExists md) = true
  · rcases hw : filepathWalk md (w.rootTree md) [] with ⟨ps, e⟩
    cases e with
    | some e =>
      rw [RefreshSqlite_walkErr mc w md ld e ps hc hw] at h
      simp at h
    | none =>
      rw [RefreshSqlite_success mc w md ld ps hc hw]
      exact buildModels_digest_nodup w ld _ (sortStrings ps) [] [] (by simp)
  · rw [RefreshSqlite_badDir mc w md ld (by simpa using hc)] at h
    simp at h

/-- World with two valid stores under "m", the first containing an internal
digest duplicate and the second repeating a digest of the first. -/
def w4 : World :=
  { dirExists := fun s => s = "m"
    rootTree := fun s =>
      if s = "m" then some (.dir "m" none [.file "a.sqlite", .file "b.sqlite"])
      else none
    store := fun p =>
      if p = "m/a.sqlite" then
        ⟨true, some MinSchemaVersion,
          some [⟨"ModelOne", "d1", "en"⟩, ⟨"ModelOneCopy", "d1", "en"⟩],
          some ⟨[⟨"en"⟩]⟩⟩
      else if p = "m/b.sqlite" then
        ⟨true, some MinSchemaVersion,
          some [⟨"ModelOne", "d1", "fr"⟩, ⟨"ModelTwo", "d2", "en"⟩],
          some ⟨[⟨"en"⟩, ⟨"fr"⟩]⟩⟩
      else storeNone
    closeRes := fun _ => none }

theorem refresh_digests_nodup_witness :
    (mc0.RefreshSqlite w4 "m" "").err = none
    ∧ ((mc0.RefreshSqlite w4 "m" "").state.modelLst.map
        (fun m => m.meta.Model.Digest)).Nodup :=
  ⟨by decide, refresh_digests_nodup mc0 w4 "m" "" (by decide)⟩

/-! ## Default-language-first reordering -/

theorem mkLangCodes_fold_no_default (d : String) (l : List LangLstRow)
    (h : ∀ x ∈ l, x.LangCode ≠ d) :
    ∀ acc : List String,
      l.foldl
        (fun ml lr =>
          if lr.LangCode = d then lr.LangCode :: ml else ml ++ [lr.LangCode]) acc
      = acc ++ l.map (fun lr => lr.LangCode) := by
  induction l with
  | nil => intro acc; simp
  | cons x rest ih =>
    intro acc
    have hx : x.LangCode ≠ d := h x (by simp)
    rw [List.foldl_cons, if_neg hx,
      ih (fun y hy => h y (by simp [hy])) (acc ++ [x.LangCode])]
    simp

theorem mkLangCodes_default_first (d : String) (pre post : List LangLstRow)
    (r : LangLstRow) (h1 : r.LangCode = d)
    (h2 : ∀ x ∈ pre, x.LangCode ≠ d) (h3 : ∀ x ∈ post, x.LangCode ≠ d) :
    mkLangCodes d (pre ++ r :: post)
      = d :: (pre ++ post).map (fun lr => lr.LangCode) := by
  unfold mkLangCodes
  rw [List.foldl_append, mkLangCodes_fold_no_default d pre h2 [],
    List.foldl_cons, if_pos h1, h1,
    mkLangCodes_fold_no_default d post h3 (d :: ([] ++ pre.map fun lr => lr.LangCode))]
  simp

/-! ## Every built entry's language list comes from `mkLangCodes` -/

theorem addRows_langCodes (fp ld : String) (il : Bool) (ls : LangMeta)
    (rows : List ModelDicRow) :
    ∀ mLst : List modelDef,
      (∀ m ∈ mLst, m.langCodes = mkLangCodes m.meta.Model.DefaultLangCode m.langMeta.Lang) →
      ∀ m ∈ addRows fp ld il ls mLst rows,
        m.langCodes = mkLangCodes m.meta.Model.DefaultLangCode m.langMeta.Lang := by
  induction rows with
  | nil => intro mLst h; simpa [addRows] using h
  | cons row rest ih =>
    intro mLst h
    unfold addRows
    split
    · exact ih mLst h
    · apply ih
      intro m hm
      rcases List.mem_append.mp hm with hm | hm
      · exact h m hm
      · simp at hm
        subst hm
        rfl

theorem probePath_langCodes (w : World) (ld : String) (il : Bool)
    (fp : String) (mLst : List modelDef)
    (h : ∀ m ∈ mLst, m.langCodes = mkLangCodes m.meta.Model.DefaultLangCode m.langMeta.Lang) :
    ∀ m ∈ (probePath w ld il mLst fp).1,
      m.langCodes = mkLangCodes m.meta.Model.DefaultLangCode m.langMeta.Lang := by
  unfold probePath
  split
  · exact h
  · dsimp only
    split
    · exact h
    · split
      · exact h
      · split
        · exact h
        · exact addRows_langCodes fp ld il _ _ mLst h

theorem buildModels_langCodes (w : World) (ld : String) (il : Bool) :
    ∀ (paths : List String) (mLst : List modelDef) (tr : List DbEvent),
      (∀ m ∈ mLst, m.langCodes = mkLangCodes m.meta.Model.DefaultLangCode m.langMeta.Lang) →
      ∀ m ∈ (buildModels w ld il paths mLst tr).1,
        m.langCodes = mkLangCodes m.meta.Model.DefaultLangCode m.langMeta.Lang := by
  intro paths
  induction paths with
  | nil => intro mLst tr h; exact h
  | cons fp rest ih =>
    intro mLst tr h
    unfold buildModels
    exact ih _ _ (probePath_langCodes w ld il fp mLst h)

/-- Claim C6: every entry the builder produces carries as language sequence
the store's language list reordered by `mkLangCodes`, and when the model's
default language code occurs exactly once in a store's language list
(`pre ++ r :: post` with the default nowhere else), that reordering puts
the default language first and keeps every other code in its original
relative order. -/
theorem default_language_first (w : World) (ld : String) (il : Bool)
    (paths : List String) (m : modelDef)
    (hm : m ∈ (buildModels w ld il paths [] []).1)
    (d : String) (pre post : List LangLstRow) (r : LangLstRow)
    (h1 : r.LangCode = d)
    (h2 : ∀ x ∈ pre, x.LangCode ≠ d) (h3 : ∀ x ∈ post, x.LangCode ≠ d) :
    m.langCodes = mkLangCodes m.meta.Model.DefaultLangCode m.langMeta.Lang
    ∧ mkLangCodes d (pre ++ r :: post)
        = d :: (pre ++ post).map (fun lr => lr.LangCode) :=
  ⟨buildModels_langCodes w ld il paths [] [] (by simp) m hm,
   mkLangCodes_default_first d pre post r h1 h2 h3⟩

/-- World with one valid store under "m" whose language list is
[en, fr, de] and whose single model declares default language fr. -/
def w6 : World :=
  { dirExists := fun s => s = "m"
    rootTree := fun s =>
      if s = "m" then some (.dir "m" none [.file "a.sqlite"]) else none
    store := fun p =>
      if p = "m/a.sqlite" then
        ⟨true, some MinSchemaVersion, some [⟨"ModelFr", "d6", "fr"⟩],
          some ⟨[⟨"en"⟩, ⟨"fr"⟩, ⟨"de"⟩]⟩⟩
      else storeNone
    closeRes := fun _ => none }

/-- Entry built from the single store of `w6`. -/
def ent6 : modelDef :=
  mkEntry "m/a.sqlite" "" false ⟨"ModelFr", "d6", "fr"⟩ ⟨[⟨"en"⟩, ⟨"fr"⟩, ⟨"de"⟩]⟩

theorem default_language_first_witness :
    ent6 ∈ (buildModels w6 "" false ["m/a.sqlite"] [] []).1
    ∧ (ent6.langCodes = mkLangCodes ent6.meta.Model.DefaultLangCode ent6.langMeta.Lang
      ∧ mkLangCodes "fr" ([⟨"en"⟩] ++ ⟨"fr"⟩ :: [⟨"de"⟩])
          = "fr" :: ([⟨"en"⟩, ⟨"de"⟩] : List LangLstRow).map (fun lr => lr.LangCode)) :=
  ⟨by decide,
   default_language_first w6 "" false ["m/a.sqlite"] ent6 (by decide) "fr"
     [⟨"en"⟩] [⟨"de"⟩] ⟨"fr"⟩ rfl (by decide) (by decide)⟩

/-! ## First-wins ordering -/

theorem lexLe_eq_not_lexLt : ∀ x y : List Char, lexLe y x = !(lexLt x y) := by
  intro x
  induction x with
  | nil => intro y; cases y <;> rfl
  | cons a as ih =>
    intro y
    cases y with
    | nil => rfl
    | cons b bs =>
      simp only [lexLe, lexLt]
      by_cases h1 : a.toNat < b.toNat
      · have h2 : ¬ b.toNat < a.toNat := by omega
        have h3 : ¬ b.toNat = a.toNat := by omega
        simp [h1, h2, h3]
      · by_cases h2 : b.toNat < a.toNat
        · have h3 : ¬ a.toNat = b.toNat := by omega
          simp [h1, h2, h3]
        · have h3 : b.toNat = a.toNat := by omega
          simp [h1, h2, h3, ih bs]

theorem strLe_false_of_strLt (A B : String) (h : strLt A B = true) :
    strLe B A = false := by
  unfold strLt at h
  unfold strLe
  rw [lexLe_eq_not_lexLt, h]
  rfl

theorem sortStrings_pair (A B : String) (h : strLt A B = true) :
    sortStrings [B, A] = [A, B] := by
  show insertSorted B (insertSorted A []) = [A, B]
  show insertSorted B [A] = [A, B]
  unfold insertSorted
  rw [strLe_false_of_strLt A B h]
  rfl

/-- Probe of a fully valid store: open succeeds, the schema version passes,
the model list is non-empty and the language list is present, so the path's
rows go through the dedup loop. -/
theorem probePath_good (w : World) (ld : String) (il : Bool)
    (mLst : List modelDef) (fp : String) (v : Int)
    (rows : List ModelDicRow) (ls : LangMeta)
    (hw : w.store fp = ⟨true, some v, some rows, some ls⟩)
    (hv : ¬ v < MinSchemaVersion) (hr : rows ≠ []) :
    probePath w ld il mLst fp
      = (addRows fp ld il ls mLst rows,
         [DbEvent.opened fp, DbEvent.getModelList fp false,
          DbEvent.getLanguages fp]) := by
  unfold probePath
  rw [hw]
  have hl : ¬ rows.length ≤ 0 := by
    cases rows with
    | nil => exact absurd rfl hr
    | cons a t => simp
  simp [hv, hl]

/-- Claim C5: with two valid stores at paths A and B, A lexicographically
smaller, both containing a model with the same digest D, the refresh
pipeline (lexicographic path sort, then first-found-wins dedup) yields
exactly one entry with digest D, and it is sourced from A (its connection
was opened on A). -/
theorem first_path_wins_on_duplicate_digest (w : World) (ld : String) (il : Bool)
    (A B D : String) (rA rB : ModelDicRow) (lsA lsB : LangMeta)
    (hAB : strLt A B = true)
    (hwA : w.store A = ⟨true, some MinSchemaVersion, some [rA], some lsA⟩)
    (hwB : w.store B = ⟨true, some MinSchemaVersion, some [rB], some lsB⟩)
    (hdA : rA.Digest = D) (hdB : rB.Digest = D) :
    sortStrings [B, A] = [A, B]
    ∧ (buildModels w ld il (sortStrings [B, A]) [] []).1.map
        (fun m => (m.meta.Model.Digest, m.dbConn)) = [(D, A)] := by
  have hs := sortStrings_pair A B hAB
  refine ⟨hs, ?_⟩
  rw [hs]
  unfold buildModels
  rw [probePath_good w ld il [] A MinSchemaVersion [rA] lsA hwA (by omega)
    (by simp)]
  dsimp only
  unfold buildModels
  rw [probePath_good w ld il (addRows A ld il lsA [] [rA]) B MinSchemaVersion
    [rB] lsB hwB (by omega) (by simp)]
  dsimp only
  unfold buildModels
  have haddA : addRows A ld il lsA [] [rA] = [mkEntry A ld il rA lsA] := by
    unfold addRows
    simp [addRows]
  rw [haddA]
  have haddB : addRows B ld il lsB [mkEntry A ld il rA lsA] [rB]
      = [mkEntry A ld il rA lsA] := by
    unfold addRows
    have : rB.Digest = (mkEntry A ld il rA lsA).meta.Model.Digest := by
      show rB.Digest = rA.Digest
      rw [hdA, hdB]
    simp [addRows, mkEntry, this]
  rw [haddB]
  simp [mkEntry, hdA]

/-- World realising the C5 scenario: stores "m/a.sqlite" and "m/b.sqlite"
both hold a model with digest "dd". -/
def w5 : World :=
  { dirExists := fun s => s = "m"
    rootTree := fun s =>
      if s = "m" then some (.dir "m" none [.file "a.sqlite", .file "b.sqlite"])
      else none
    store := fun p =>
      if p = "m/a.sqlite" then
        ⟨true, some MinSchemaVersion, some [⟨"Dup", "dd", "en"⟩], some ⟨[⟨"en"⟩]⟩⟩
      else if p = "m/b.sqlite" then
        ⟨true, some MinSchemaVersion, some [⟨"Dup", "dd", "fr"⟩], some ⟨[⟨"fr"⟩]⟩⟩
      else storeNone
    closeRes := fun _ => none }

theorem first_path_wins_on_duplicate_digest_witness :
    sortStrings ["m/b.sqlite", "m/a.sqlite"] = ["m/a.sqlite", "m/b.sqlite"]
    ∧ (buildModels w5 "" false (sortStrings ["m/b.sqlite", "m/a.sqlite"]) [] []).1.map
        (fun m => (m.meta.Model.Digest, m.dbConn)) = [("dd", "m/a.sqlite")] :=
  first_path_wins_on_duplicate_digest w5 "" false "m/a.sqlite" "m/b.sqlite" "dd"
    ⟨"Dup", "dd", "en"⟩ ⟨"Dup", "dd", "fr"⟩ ⟨[⟨"en"⟩]⟩ ⟨[⟨"fr"⟩]⟩
    (by decide) (by decide) (by decide) rfl rfl
